import Mathlib

/-!
Verification of the Kolibri ingest pipeline (ingest script v7).

The definitions below are a shallow embedding of the JavaScript source:
timestamp resolution (JSON index lookup, fuzzy numeric-token lookup,
container probe, folder-derived date, mtime fallback), the video/image
processing fallback chains, and the manifest de-duplication and sort.
Machine dates are epoch milliseconds modelled as `Int`; JavaScript `null`
is modelled as `Option.none`; external-tool outcomes (ffmpeg exit codes,
probe results, file existence) are explicit boolean/optional parameters.
-/

namespace Kolibri

/-! ### Date arithmetic (model of `Date.UTC`)

`daysFromCivil` is the standard civil-from-days inverse (Hinnant's
algorithm) giving days since 1970-01-01 for a proleptic Gregorian date;
all divisions are floor divisions. `dateUTC y mo d h` models
`Date.UTC(y, mo, d, h)` including JavaScript's month normalization
(month index `mo` may lie outside 0..11 and rolls the year). -/

def daysFromCivil (y m d : Int) : Int :=
  let y1 := if m ≤ 2 then y - 1 else y
  let era := Int.fdiv y1 400
  let yoe := y1 - era * 400
  let mp := Int.emod (m + 9) 12
  let doy := Int.fdiv (153 * mp + 2) 5 + d - 1
  let doe := yoe * 365 + Int.fdiv yoe 4 - Int.fdiv yoe 100 + doy
  era * 146097 + doe - 719468

def dateUTC (y mo d h : Int) : Int :=
  let ny := y + Int.fdiv mo 12
  let nm := Int.emod mo 12 + 1
  daysFromCivil ny nm d * 86400000 + h * 3600000

/-! ### Plausibility window

Source: `MIN_TS = Date.UTC(2010,0,1)`, `MAX_TS = NOW + 3*24*3600*1000`,
`plausible = (t) => Number.isFinite(t) && t >= MIN_TS && t <= MAX_TS`.
`NOW` (`Date.now()` at startup) is the explicit parameter `now`.
An `Int` is always finite; a JavaScript `null` candidate is `none` and
is never plausible. -/

def MIN_TS : Int := dateUTC 2010 0 1 0

def plausibleAt (now t : Int) : Bool :=
  decide (MIN_TS ≤ t) && decide (t ≤ now + 3 * 24 * 3600 * 1000)

def plausibleOpt (now : Int) : Option Int → Bool
  | none => false
  | some t => plausibleAt now t

/-! ### Numeric tokens and the folder date

Source: `extractNumericTokens(name)` is `name.match(/\d{10,}/g) || []`,
i.e. the maximal runs of decimal digits of length at least 10, in order
of appearance.  `tsFromFolder(absPath)` matches the (backslash
normalized) absolute path against
`/\/media\/(posts|reels)\/(20\d{2})(\d{2})\//` (leftmost match) and
returns `Date.UTC(year, month-1, 15, 12, 0, 0)`. -/

def isDigitCh (c : Char) : Bool := decide ('0' ≤ c) && decide (c ≤ '9')

def digitVal (c : Char) : Int := Int.ofNat (c.toNat - 48)

def digitRunsAux : List Char → List Char → List (List Char)
  | acc, [] => if acc.isEmpty then [] else [acc.reverse]
  | acc, c :: cs =>
    if isDigitCh c then digitRunsAux (c :: acc) cs
    else if acc.isEmpty then digitRunsAux [] cs
    else acc.reverse :: digitRunsAux [] cs

def extractNumericTokens (name : String) : List String :=
  ((digitRunsAux [] name.toList).filter (fun r => decide (10 ≤ r.length))).map
    (fun r => String.mk r)

def normSlashes (s : String) : List Char :=
  s.toList.map (fun c => if c = '\\' then '/' else c)

def matchMediaAt : List Char → Option (Int × Int)
  | '/' :: 'm' :: 'e' :: 'd' :: 'i' :: 'a' :: '/' :: rest =>
    (match rest with
     | 'p' :: 'o' :: 's' :: 't' :: 's' :: '/' :: '2' :: '0' :: a :: b :: c :: d :: '/' :: _ =>
       if isDigitCh a && isDigitCh b && isDigitCh c && isDigitCh d then
         some (2000 + 10 * digitVal a + digitVal b, 10 * digitVal c + digitVal d)
       else none
     | 'r' :: 'e' :: 'e' :: 'l' :: 's' :: '/' :: '2' :: '0' :: a :: b :: c :: d :: '/' :: _ =>
       if isDigitCh a && isDigitCh b && isDigitCh c && isDigitCh d then
         some (2000 + 10 * digitVal a + digitVal b, 10 * digitVal c + digitVal d)
       else none
     | _ => none)
  | _ => none

def scanMedia : List Char → Option (Int × Int)
  | [] => none
  | c :: cs =>
    match matchMediaAt (c :: cs) with
    | some r => some r
    | none => scanMedia cs

def tsFromFolder (absPath : String) : Option Int :=
  match scanMedia (normSlashes absPath) with
  | some (y, mm) => some (dateUTC y (mm - 1) 15 12)
  | none => none

/-! ### Metadata index

`buildMetaIndex` produces two first-seen-wins maps
`byBase : basename -> {ts, caption}` and
`byNumericId : token -> {ts, caption}`; both are modelled as association
lists where lookup returns the first binding (first insertion wins,
as `if(!map.has(k)) map.set(k, v)` in the source). A record may carry
no usable timestamp (`getTsMs` returns `null`), hence `ts : Option Int`. -/

structure MetaEntry where
  ts : Option Int
  caption : String
deriving DecidableEq

structure MetaIndex where
  byBase : List (String × MetaEntry)
  byNumericId : List (String × MetaEntry)
deriving DecidableEq

def alookup : List (String × MetaEntry) → String → Option MetaEntry
  | [], _ => none
  | (k, v) :: rest, k' => if k = k' then some v else alookup rest k'

/-- Source (main per-file task): `for(const tok of extractNumericTokens(base)){
if(byNumericId.has(tok)){ meta = byNumericId.get(tok); break; } }`. -/
def firstTokenHit (byNum : List (String × MetaEntry)) : List String → Option MetaEntry
  | [] => none
  | t :: rest =>
    match alookup byNum t with
    | some m => some m
    | none => firstTokenHit byNum rest

/-- Source: `let meta = byBase.get(base) || null; if(!meta){ ...fuzzy... }`.
A `byBase` entry is an object and hence truthy, so the fuzzy token lookup
runs only when there is no `byBase` entry at all. -/
def lookupMeta (idx : MetaIndex) (base : String) : Option MetaEntry :=
  match alookup idx.byBase base with
  | some m => some m
  | none => firstTokenHit idx.byNumericId (extractNumericTokens base)

/-! ### Timestamp resolution (main per-file task, lines 387-410) -/

/-- The nulling step `if(!plausible(x)) x = null` applied to a candidate. -/
def filt (now : Int) (o : Option Int) : Option Int :=
  if plausibleOpt now o then o else none

structure FileInfo where
  base : String
  absPath : String
  isVid : Bool
  hasFFPROBE : Bool
  /-- Result of `ffprobeCreationTime` (the parsed `creation_time` tag);
  `none` models a probe failure or an unparsable tag. -/
  probeResult : Option Int
  mtimeMs : Int
deriving DecidableEq

/-- Source:
`let ts = meta?.ts ?? null; if(!plausible(ts)) ts = null;`
`let probeTs = null; if(!ts && isVideo(abs) && hasFFPROBE){ probeTs = await
ffprobeCreationTime(abs); if(!plausible(probeTs)) probeTs = null; }`
`let folderTs = tsFromFolder(abs); if(!plausible(folderTs)) folderTs = null;`
`ts = ts ?? probeTs ?? folderTs ?? stat.mtimeMs;`
A plausible `ts` is at least `MIN_TS > 0`, so the `!ts` guard coincides
with `ts` being null. -/
def resolveTs (now : Int) (idx : MetaIndex) (f : FileInfo) : Int :=
  let meta := lookupMeta idx f.base
  let ts1 : Option Int := filt now (meta.bind (fun m => m.ts))
  let probeTs : Option Int :=
    if ts1.isNone && f.isVid && f.hasFFPROBE then filt now f.probeResult else none
  let folderTs : Option Int := filt now (tsFromFolder f.absPath)
  match ts1 with
  | some t => t
  | none =>
    match probeTs with
    | some t => t
    | none =>
      match folderTs with
      | some t => t
      | none => f.mtimeMs

/-- Stages 3-5 of the cascade (probe, folder, mtime), as resolution
proceeds once the JSON metadata produced no plausible timestamp. -/
def laterTs (now : Int) (f : FileInfo) : Int :=
  match (if f.isVid && f.hasFFPROBE then filt now f.probeResult else none) with
  | some t => t
  | none =>
    match filt now (tsFromFolder f.absPath) with
    | some t => t
    | none => f.mtimeMs

/-- Source: `const caption = meta?.caption ?? ""` — taken from the matched
index entry independently of the timestamp plausibility check. -/
def resolveCaption (idx : MetaIndex) (f : FileInfo) : String :=
  match lookupMeta idx f.base with
  | some m => m.caption
  | none => ""

/-- Stages 1-2 of the cascade as ordered stages: the exact basename
stage, and — only when that stage found no index entry at all — the
fuzzy numeric-token stage; each hit is subjected to the plausibility
filter. -/
def metaStage (now : Int) (idx : MetaIndex) (base : String) : Option Int :=
  match alookup idx.byBase base with
  | some m => filt now m.ts
  | none =>
    match firstTokenHit idx.byNumericId (extractNumericTokens base) with
    | some m => filt now m.ts
    | none => none

/-- The decision cascade written as the ordered stages of the spec,
with the gating the code actually implements: the fuzzy token stage runs
only when the exact basename lookup found no entry at all, while the
probe / folder / mtime stages run whenever no earlier stage produced a
plausible value. -/
def cascadeSpec (now : Int) (idx : MetaIndex) (f : FileInfo) : Int :=
  match metaStage now idx f.base with
  | some t => t
  | none => laterTs now f

/-! ### Video and image processing (processVideo / processImage)

External-tool outcomes are explicit boolean parameters: each `Bool`
records whether the corresponding ffmpeg/ffprobe/sharp invocation would
exit successfully, and the `Exists` booleans record whether the output
files are already on disk when the task starts. -/

/-- One attempted stage of the video fallback chain. -/
inductive VStage where
  | transcode
  | remux
  | synth
deriving DecidableEq

/-- One attempted poster step: frame extraction from the transcoded
output, frame extraction from the original source, or a synthesized
solid-color placeholder. -/
inductive PStep where
  | frameOut
  | frameSrc
  | solid
deriving DecidableEq

structure VidResult where
  ok : Bool
  chainAttempts : List VStage
  posterSteps : List PStep
  skipLog : List String
deriving DecidableEq

/-- Source: `tryMakePoster(srcForFrame, outPoster)` — try `ffmpegPoster`,
on failure try `makeSolidPoster`, on failure return false. -/
def tryMakePoster (frameOk solidOk : Bool) (frameStep : PStep) : Bool × List PStep :=
  if frameOk then (true, [frameStep])
  else if solidOk then (true, [frameStep, PStep.solid])
  else (false, [frameStep, PStep.solid])

/-- Source: `const posterOK = await tryMakePoster(outMp4, outPoster) ||
await tryMakePoster(src, outPoster); if(!posterOK){ await logSkip(src,
"poster failed; using solid placeholder"); try { await
makeSolidPoster(outPoster); } catch {} }`. Returns the attempted steps in
order and the skip-log lines written. -/
def posterPhase (pOutFrame pSolid1 pSrcFrame pSolid2 : Bool) : List PStep × List String :=
  let r1 := tryMakePoster pOutFrame pSolid1 PStep.frameOut
  if r1.1 then (r1.2, [])
  else
    let r2 := tryMakePoster pSrcFrame pSolid2 PStep.frameSrc
    if r2.1 then (r1.2 ++ r2.2, [])
    else (r1.2 ++ r2.2 ++ [PStep.solid], ["poster failed; using solid placeholder"])

/-- The single skip-log line written when all three chain stages fail,
concatenating the transcode, remux and synth failure reasons; the synth
reason is `no audio to synth` when the source has no audio stream. -/
def chainFailMsg (hasAudio : Bool) : String :=
  "video failed: transcode -> encode failed; remux -> remux failed; synth -> " ++
    (if hasAudio then "synth failed" else "no audio to synth")

/-- Source: `processVideo(src, outMp4, outPoster)`. Skips immediately when
not forced and both outputs exist; otherwise runs the transcode → remux →
synth chain (synth throws `no audio to synth` when the source has no
audio stream), logging one three-reason entry and returning false when
all three fail, and otherwise running the poster phase and returning
true. Failure messages follow the `close`-event paths of the source. -/
def processVideo (force outMp4Exists outPosterExists transcodeOk remuxOk hasAudio synthOk
    pOutFrame pSolid1 pSrcFrame pSolid2 : Bool) : VidResult :=
  if !force && outMp4Exists && outPosterExists then ⟨true, [], [], []⟩
  else
    let attempts :=
      if transcodeOk then [VStage.transcode]
      else if remuxOk then [VStage.transcode, VStage.remux]
      else [VStage.transcode, VStage.remux, VStage.synth]
    let chainOk := transcodeOk || remuxOk || (hasAudio && synthOk)
    if chainOk then
      let p := posterPhase pOutFrame pSolid1 pSrcFrame pSolid2
      ⟨true, attempts, p.1, p.2⟩
    else
      ⟨false, attempts, [], [chainFailMsg hasAudio]⟩

/-- Source: `processImage(src, outFull, outThumb)` — skip when not forced
and both outputs exist, else one sharp pipeline run that either writes
both outputs or fails. Returns (success, transcode invocations). -/
def processImage (force outFullExists outThumbExists sharpOk : Bool) : Bool × Nat :=
  if !force && outFullExists && outThumbExists then (true, 0)
  else (sharpOk, 1)

/-! ### Manifest entries, de-duplication and sort (main, lines 412-459) -/

structure Item where
  id : String
  type : String
  src : String
  thumb : String
  ts : Int
  caption : String
deriving DecidableEq

/-- Source: `const key = it.type + "|" + it.src`. -/
def key (it : Item) : String := it.type ++ "|" ++ it.src

/-- Membership in the `seen` set of keys. -/
def seenHas : List String → String → Bool
  | [], _ => false
  | s :: rest, k => if s = k then true else seenHas rest k

/-- Source: the `seen`-set loop — keep an item iff its key was not seen
before, accumulating keys. -/
def dedupeAux (seen : List String) : List Item → List Item
  | [] => []
  | it :: rest =>
    if seenHas seen (key it) then dedupeAux seen rest
    else it :: dedupeAux (key it :: seen) rest

def dedupe (l : List Item) : List Item := dedupeAux [] l

/-- The de-duplication as the spec words it: keep the first entry for
each (kind, output path) key and drop every later entry with the same
key (never merging). -/
def dedupeSpec : List Item → List Item
  | [] => []
  | x :: xs => x :: (dedupeSpec xs).filter (fun y => key y != key x)

/-- The sort order of `out.sort((a,b)=>(b.ts||0)-(a.ts||0))`: `a`
precedes `b` when the comparator is non-positive, i.e. `b.ts ≤ a.ts`
(`ts` is always a finite number here, and `x||0` only maps `0` to `0`). -/
def rTs (a b : Item) : Prop := b.ts ≤ a.ts

instance : DecidableRel rTs := fun a b => (inferInstance : Decidable (b.ts ≤ a.ts))

instance : IsTotal Item rTs := ⟨fun a b => le_total b.ts a.ts⟩

instance : IsTrans Item rTs := ⟨fun _ _ _ hab hbc => le_trans hbc hab⟩

/-- JavaScript `Array.prototype.sort` is stable and its comparator here
is consistent, so the result is the unique stable descending-by-`ts`
permutation: insertion sort with `rTs`. -/
def sortItems (l : List Item) : List Item := List.insertionSort rTs l

/-- Source: de-dupe then sort — the final manifest as written to
`media.json`, as a function of the accumulated `items` list. -/
def finalManifest (items : List Item) : List Item := sortItems (dedupe items)

/-- Lexicographic comparison of identifier strings (character order). -/
def charListLt : List Char → List Char → Bool
  | [], [] => false
  | [], _ :: _ => true
  | _ :: _, [] => false
  | a :: as, b :: bs => if a < b then true else if b < a then false else charListLt as bs

def idLt (a b : String) : Bool := charListLt a.toList b.toList

/-- The adjacency order claimed by the spec for the final manifest:
strictly newer first, ties by descending identifier string comparison. -/
def specTieOrder (a b : Item) : Prop :=
  b.ts < a.ts ∨ (a.ts = b.ts ∧ idLt b.id a.id = true)

instance : DecidableRel specTieOrder := fun a b =>
  (inferInstance : Decidable (b.ts < a.ts ∨ (a.ts = b.ts ∧ idLt b.id a.id = true)))

/-! ### Pipeline (per-file dispatch, accumulation, output) -/

/-- A per-file processing job with its external-tool outcomes: an image
(sharp) job or a video (ffmpeg chain) job, in the argument order of
`processImage` / `processVideo`. -/
inductive Proc where
  | img : Bool → Bool → Bool → Bool → Proc
  | vid : Bool → Bool → Bool → Bool → Bool → Bool → Bool → Bool → Bool → Bool → Bool → Proc
deriving DecidableEq

/-- Run one job: its success flag and the number of external transcode
invocations it performed (sharp runs, ffmpeg chain stages and poster
steps). -/
def procRun : Proc → Bool × Nat
  | Proc.img f o1 o2 s => processImage f o1 o2 s
  | Proc.vid f o1 o2 t r ha s p1 p2 p3 p4 =>
    let res := processVideo f o1 o2 t r ha s p1 p2 p3 p4
    (res.ok, res.chainAttempts.length + res.posterSteps.length)

def procOk (p : Proc) : Bool := (procRun p).1

def procInv (p : Proc) : Nat := (procRun p).2

/-- Both expected outputs already on disk and force-overwrite off. -/
def outputsReady : Proc → Prop
  | Proc.img f o1 o2 _ => f = false ∧ o1 = true ∧ o2 = true
  | Proc.vid f o1 o2 _ _ _ _ _ _ _ _ => f = false ∧ o1 = true ∧ o2 = true

/-- A per-file task: its processing job and the manifest entry it pushes
on success (id, paths, resolved timestamp and caption are fixed by the
file's content hash and resolution inputs). -/
structure Task where
  proc : Proc
  item : Item
deriving DecidableEq

/-- The run, for a given task order: tasks whose processing succeeds push
their entry, the accumulated list is de-duplicated and sorted, and the
total number of transcode invocations is summed. -/
def runPipeline (ts : List Task) : List Item × Nat :=
  (finalManifest ((ts.filter (fun t => procOk t.proc)).map (fun t => t.item)),
   (ts.map (fun t => procInv t.proc)).sum)

/-! ### Concrete scenario inputs

Fixed reference run time `nowRun` (2023-11-14T22:13:20Z) and concrete
indices / files used to instantiate the theorems. -/

def nowRun : Int := 1700000000000

def emptyIdx : MetaIndex := ⟨[], []⟩

/-- A basename entry with no usable timestamp alongside a numeric-token
entry with a plausible one. -/
def idxC1 : MetaIndex :=
  ⟨[("a1234567890.jpg", ⟨none, ""⟩)], [("1234567890", ⟨some 1500000000000, "tok"⟩)]⟩

def fC1 : FileInfo :=
  ⟨"a1234567890.jpg", "/in/a1234567890.jpg", false, false, none, 1600000000000⟩

/-- A basename entry whose timestamp (1000 ms, i.e. 1970-01-01T00:00:01Z)
is implausible. -/
def idxC3 : MetaIndex := ⟨[("a.jpg", ⟨some 1000, "cap"⟩)], []⟩

def fC3 : FileInfo := ⟨"a.jpg", "/in/a.jpg", false, false, none, 1600000000000⟩

def idxC3w : MetaIndex := ⟨[("w.jpg", ⟨some 1500000000000, "c"⟩)], []⟩

def fC3w : FileInfo := ⟨"w.jpg", "/elsewhere/no/date/w.jpg", false, false, none, 42⟩

/-- No metadata; the folder segment gives 2000-01-15T12:00:00Z, which is
before 2010 and hence implausible. -/
def fC4 : FileInfo :=
  ⟨"a.jpg", "/in/media/posts/200001/a.jpg", false, false, none, 1600000000000⟩

def fC4w : FileInfo := ⟨"v.jpg", "/x/media/reels/201505/v.jpg", false, false, none, 42⟩

/-- A video with no metadata match, a folder segment giving the
plausible 2015-02-15T12:00:00Z, and a plausible container-probe creation
time that takes precedence over the folder date. -/
def fC4v : FileInfo :=
  ⟨"v.mp4", "/in/media/posts/201502/v.mp4", true, true, some 1450000000000, 1600000000000⟩

def itemA5 : Item := ⟨"a", "image", "assets/media/img/full/a.webp", "ta", 1500000000000, ""⟩

def itemB5 : Item := ⟨"b", "image", "assets/media/img/full/b.webp", "tb", 1500000000000, ""⟩

def idxC10 : MetaIndex := ⟨[("x.jpg", ⟨some 10, "hello"⟩)], []⟩

def fC10 : FileInfo := ⟨"x.jpg", "/in/x.jpg", false, false, none, 1600000000000⟩

def itemW9 : Item := ⟨"w", "image", "assets/media/img/full/w.webp", "tw", 1500000000000, ""⟩

/-- First run: outputs absent, sharp succeeds. -/
def tasksRun1 : List Task := [⟨Proc.img false false false true, itemW9⟩]

/-- Second run: both outputs pre-exist, force off. -/
def tasksRun2 : List Task := [⟨Proc.img false true true true, itemW9⟩]

/-! ### Helper lemmas on the resolver -/

theorem filt_eq_some {now t : Int} {o : Option Int} (h : filt now o = some t) :
    plausibleAt now t = true := by
  unfold filt at h
  cases hp : plausibleOpt now o with
  | false => rw [hp] at h; simp at h
  | true =>
    rw [hp] at h
    simp only [if_true] at h
    subst h
    simpa [plausibleOpt] using hp

theorem ite_filt_eq_some {now t : Int} {c : Bool} {o : Option Int}
    (h : (if c then filt now o else none) = some t) : plausibleAt now t = true := by
  cases c with
  | false => simp at h
  | true => exact filt_eq_some (by simpa using h)

theorem metaStage_eq_some {now t : Int} {idx : MetaIndex} {b : String}
    (h : metaStage now idx b = some t) : plausibleAt now t = true := by
  unfold metaStage at h
  cases hb : alookup idx.byBase b with
  | some m => rw [hb] at h; exact filt_eq_some h
  | none =>
    rw [hb] at h
    cases hf : firstTokenHit idx.byNumericId (extractNumericTokens b) with
    | some m => rw [hf] at h; exact filt_eq_some h
    | none => rw [hf] at h; simp at h

theorem laterTs_mtime_or_plausible (now : Int) (f : FileInfo) :
    laterTs now f = f.mtimeMs ∨ plausibleAt now (laterTs now f) = true := by
  unfold laterTs
  cases hp : (if f.isVid && f.hasFFPROBE then filt now f.probeResult else none) with
  | some t => right; simpa using ite_filt_eq_some hp
  | none =>
    cases hf : filt now (tsFromFolder f.absPath) with
    | some t => right; simpa using filt_eq_some hf
    | none => left; rfl

/-- The resolver, normalized to the staged cascade form. -/
theorem resolveTs_eq_stage (now : Int) (idx : MetaIndex) (f : FileInfo) :
    resolveTs now idx f = cascadeSpec now idx f := by
  unfold resolveTs cascadeSpec metaStage lookupMeta laterTs
  cases hb : alookup idx.byBase f.base with
  | some m =>
    cases hf : filt now m.ts with
    | some t => simp [hb, hf]
    | none => simp [hb, hf]
  | none =>
    cases hf : firstTokenHit idx.byNumericId (extractNumericTokens f.base) with
    | some m =>
      cases hm : filt now m.ts with
      | some t => simp [hb, hf, hm]
      | none => simp [hb, hf, hm]
    | none => simp [hb, hf, filt]

theorem lookupMeta_none_metaStage {idx : MetaIndex} {b : String} (now : Int)
    (h : lookupMeta idx b = none) : metaStage now idx b = none := by
  unfold lookupMeta at h
  unfold metaStage
  cases hb : alookup idx.byBase b with
  | some m => rw [hb] at h; simp at h
  | none =>
    rw [hb] at h
    simp at h
    simp [hb, h]

theorem lookupMeta_some_metaStage {idx : MetaIndex} {b : String} {m : MetaEntry} (now : Int)
    (h : lookupMeta idx b = some m) : metaStage now idx b = filt now m.ts := by
  unfold lookupMeta at h
  unfold metaStage
  cases hb : alookup idx.byBase b with
  | some m' =>
    rw [hb] at h
    simp at h
    subst h
    simp [hb]
  | none =>
    rw [hb] at h
    simp at h
    simp [hb, h]

/-! ### Claims C1-C4 and C10: the timestamp cascade -/

/-- Claim C1, as amended: the resolver equals the staged cascade in which
the probe, folder and mtime stages each run only when no earlier stage
produced a plausible timestamp, but the fuzzy numeric-token stage runs
only when the exact basename lookup found no index entry at all — an
entry with an absent or implausible timestamp suppresses the fuzzy
lookup and resolution falls directly to the later stages. -/
theorem kolibriC1_cascadeOrder (now : Int) (idx : MetaIndex) (f : FileInfo) :
    resolveTs now idx f = cascadeSpec now idx f :=
  resolveTs_eq_stage now idx f

/-- Claim C1 counterexample: the basename index maps `fC1.base` to an
entry with no plausible timestamp while the numeric-token index holds a
plausible timestamp for its 10-digit token; the claim says the fuzzy
lookup is still attempted (first match wins), yet the code resolves to
the file's mtime, not the token's timestamp. -/
theorem kolibriC1_counterexample :
    alookup idxC1.byBase fC1.base = some ⟨none, ""⟩ ∧
    firstTokenHit idxC1.byNumericId (extractNumericTokens fC1.base) =
      some ⟨some 1500000000000, "tok"⟩ ∧
    plausibleAt nowRun 1500000000000 = true ∧
    resolveTs nowRun idxC1 fC1 = 1600000000000 ∧
    (1600000000000 : Int) ≠ 1500000000000 := by
  refine ⟨rfl, by decide, by decide, by decide, by decide⟩

/-- Claim C2: every cascade stage other than the mtime fallback only ever
contributes a plausible timestamp, so the resolved timestamp is either
plausible (finite, at least 2010-01-01, at most `now` + 3 days) or the
file's mtime. -/
theorem kolibriC2_stagePlausible (now : Int) (idx : MetaIndex) (f : FileInfo) :
    resolveTs now idx f = f.mtimeMs ∨ plausibleAt now (resolveTs now idx f) = true := by
  rw [resolveTs_eq_stage]
  unfold cascadeSpec
  cases hm : metaStage now idx f.base with
  | some t => right; simpa using metaStage_eq_some hm
  | none => exact laterTs_mtime_or_plausible now f

/-- Claim C3 counterexample: the basename `a.jpg` has an exact index
entry with timestamp 1000 ms (implausible), and the resolved timestamp
is the file's mtime, not the indexed value. -/
theorem kolibriC3_counterexample :
    alookup idxC3.byBase fC3.base = some ⟨some 1000, "cap"⟩ ∧
    resolveTs nowRun idxC3 fC3 = 1600000000000 ∧
    (1600000000000 : Int) ≠ 1000 := by
  refine ⟨rfl, by decide, by decide⟩

/-- Claim C3, as amended: for every media file whose basename has an
exact index entry carrying a plausible timestamp, the resolved timestamp
equals that entry's timestamp, independently of which folder the file
lives in (no hypothesis constrains `f.absPath`). -/
theorem kolibriC3_basenameWins (now : Int) (idx : MetaIndex) (f : FileInfo)
    (m : MetaEntry) (t : Int) (hb : alookup idx.byBase f.base = some m)
    (hm : m.ts = some t) (hp : plausibleAt now t = true) :
    resolveTs now idx f = t := by
  rw [resolveTs_eq_stage]
  unfold cascadeSpec metaStage
  simp [hb, hm, filt, plausibleOpt, hp]

theorem kolibriC3_witness : resolveTs nowRun idxC3w fC3w = 1500000000000 :=
  kolibriC3_basenameWins nowRun idxC3w fC3w ⟨some 1500000000000, "c"⟩ 1500000000000
    rfl rfl (by decide)

/-- Claim C4 counterexample: `fC4` has no metadata match and its path
contains the segment `media/posts/200001/`, whose derived date
2000-01-15T12:00:00Z (947937600000) is before 2010 and hence rejected by
the plausibility filter, so the file resolves to its mtime instead of
the folder-derived instant the claim demands; and the video `fC4v` with
no metadata match and the plausible folder date 2015-02-15T12:00:00Z
(1424001600000) resolves to its container-probe creation time instead. -/
theorem kolibriC4_counterexample :
    lookupMeta emptyIdx fC4.base = none ∧
    tsFromFolder fC4.absPath = some 947937600000 ∧
    resolveTs nowRun emptyIdx fC4 = 1600000000000 ∧
    (1600000000000 : Int) ≠ 947937600000 ∧
    lookupMeta emptyIdx fC4v.base = none ∧
    tsFromFolder fC4v.absPath = some 1424001600000 ∧
    resolveTs nowRun emptyIdx fC4v = 1450000000000 ∧
    (1450000000000 : Int) ≠ 1424001600000 := by
  refine ⟨rfl, by decide, by decide, by decide, rfl, by decide, by decide, by decide⟩

/-- Claim C4, as amended: a file with no metadata match and no plausible
container-probe timestamp resolves to the folder-derived mid-month
instant when the path carries a recognized `media/(posts|reels)/YYYYMM/`
segment whose derived date is plausible, and to the filesystem mtime
when no such segment exists. -/
theorem kolibriC4_folderFallback (now : Int) (idx : MetaIndex) (f : FileInfo) (t : Int)
    (hmeta : lookupMeta idx f.base = none)
    (hprobe : (f.isVid && f.hasFFPROBE && plausibleOpt now f.probeResult) = false) :
    (tsFromFolder f.absPath = some t → plausibleAt now t = true →
      resolveTs now idx f = t) ∧
    (tsFromFolder f.absPath = none → resolveTs now idx f = f.mtimeMs) := by
  rw [resolveTs_eq_stage]
  unfold cascadeSpec
  rw [lookupMeta_none_metaStage now hmeta]
  unfold laterTs
  have hpr : (if f.isVid && f.hasFFPROBE then filt now f.probeResult else none) = none := by
    cases hv : f.isVid && f.hasFFPROBE with
    | false => simp
    | true =>
      rw [hv, Bool.true_and] at hprobe
      simp [filt, hprobe]
  rw [hpr]
  constructor
  · intro hf hp
    rw [hf]
    simp [filt, plausibleOpt, hp]
  · intro hf
    rw [hf]
    simp [filt, plausibleOpt]

theorem kolibriC4_witness : resolveTs nowRun emptyIdx fC4w = 1431691200000 :=
  (kolibriC4_folderFallback nowRun emptyIdx fC4w 1431691200000 rfl (by decide)).1
    (by decide) (by decide)

/-- Claim C10: whenever the basename (or a numeric token) matches an
index entry, the manifest caption comes from that entry even when the
entry's timestamp is absent or implausible — in which case the resolved
timestamp comes from the later stages (probe, folder, or mtime), so
caption and date can have different sources. -/
theorem kolibriC10_captionIndependent (now : Int) (idx : MetaIndex) (f : FileInfo)
    (m : MetaEntry) (h : lookupMeta idx f.base = some m) :
    resolveCaption idx f = m.caption ∧
    (plausibleOpt now m.ts = false → resolveTs now idx f = laterTs now f) := by
  constructor
  · unfold resolveCaption
    rw [h]
  · intro hp
    rw [resolveTs_eq_stage]
    unfold cascadeSpec
    rw [lookupMeta_some_metaStage now h]
    simp [filt, hp]

/-- Claim C10 witness: caption `hello` is taken from the index entry
while its 10 ms timestamp is rejected and the date falls to the later
stages (here the mtime). -/
theorem kolibriC10_witness :
    resolveCaption idxC10 fC10 = "hello" ∧
    resolveTs nowRun idxC10 fC10 = laterTs nowRun fC10 := by
  have h := kolibriC10_captionIndependent nowRun idxC10 fC10 ⟨some 10, "hello"⟩ rfl
  exact ⟨h.1, h.2 (by decide)⟩

/-! ### Helper lemmas on de-duplication -/

theorem filter_and (p q : Item → Bool) (l : List Item) :
    (l.filter q).filter p = l.filter (fun y => p y && q y) := by
  induction l with
  | nil => rfl
  | cons a l ih => cases hq : q a <;> cases hp : p a <;>
      simp [List.filter_cons, hq, hp, ih]

theorem filter_and_of_imp {p q : Item → Bool} (h : ∀ y, p y = true → q y = true)
    (l : List Item) : l.filter (fun y => p y && q y) = l.filter p := by
  induction l with
  | nil => rfl
  | cons a l ih =>
    cases hp : p a with
    | true => have hq := h a hp; simp [List.filter_cons, hp, hq, ih]
    | false => simp [List.filter_cons, hp, ih]

theorem dedupeAux_eq : ∀ (l : List Item) (seen : List String),
    dedupeAux seen l = (dedupeSpec l).filter (fun y => !(seenHas seen (key y))) := by
  intro l
  induction l with
  | nil => intro seen; rfl
  | cons x xs ih =>
    intro seen
    rw [show dedupeSpec (x :: xs) = x :: (dedupeSpec xs).filter (fun y => key y != key x)
      from rfl]
    cases hs : seenHas seen (key x) with
    | true =>
      rw [show dedupeAux seen (x :: xs) = dedupeAux seen xs by simp [dedupeAux, hs]]
      rw [ih seen, List.filter_cons]
      rw [if_neg (by simp [hs])]
      rw [filter_and]
      refine (filter_and_of_imp ?_ _).symm
      intro y hy
      have hns : seenHas seen (key y) = false := by
        cases hsy : seenHas seen (key y) with
        | false => rfl
        | true => rw [hsy] at hy; simp at hy
      by_cases hxy : key y = key x
      · rw [hxy] at hns; rw [hns] at hs; cases hs
      · simpa [bne_iff_ne] using hxy
    | false =>
      rw [show dedupeAux seen (x :: xs) = x :: dedupeAux (key x :: seen) xs by
        simp [dedupeAux, hs]]
      rw [ih (key x :: seen), List.filter_cons]
      rw [if_pos (by simp [hs])]
      rw [filter_and]
      have hpred : (fun y : Item => !(seenHas (key x :: seen) (key y))) =
          (fun y : Item => (!(seenHas seen (key y))) && (key y != key x)) := by
        funext y
        show (!(seenHas (key x :: seen) (key y))) = _
        by_cases hxy : key x = key y
        · rw [show seenHas (key x :: seen) (key y) = true from by simp [seenHas, hxy]]
          rw [show (key y != key x) = false from by simp [bne, hxy]]
          simp
        · have hyx : ¬ key y = key x := fun h => hxy h.symm
          rw [show seenHas (key x :: seen) (key y) = seenHas seen (key y) from by
            simp [seenHas, hxy]]
          rw [show (key y != key x) = true from by simpa [bne_iff_ne] using hyx]
          simp
      rw [hpred]

theorem dedupe_eq_dedupeSpecAux (l : List Item) : dedupe l = dedupeSpec l := by
  unfold dedupe
  rw [dedupeAux_eq]
  have h : (fun y : Item => !(seenHas [] (key y))) = fun _ => true := by
    funext y; rfl
  rw [h]
  simp

theorem mem_of_mem_dedupeSpec : ∀ (l : List Item) (y : Item), y ∈ dedupeSpec l → y ∈ l := by
  intro l
  induction l with
  | nil => intro y h; exact h
  | cons x xs ih =>
    intro y h
    simp only [dedupeSpec] at h
    rcases List.mem_cons.mp h with h1 | h2
    · rw [h1]; exact List.mem_cons_self x xs
    · exact List.mem_cons_of_mem x (ih y (List.mem_filter.mp h2).1)

theorem nodup_keys_dedupeSpec : ∀ l : List Item, ((dedupeSpec l).map key).Nodup := by
  intro l
  induction l with
  | nil => simp [dedupeSpec]
  | cons x xs ih =>
    simp only [dedupeSpec, List.map_cons]
    rw [List.nodup_cons]
    constructor
    · intro hmem
      rcases List.mem_map.mp hmem with ⟨y, hy, hky⟩
      have hyf := (List.mem_filter.mp hy).2
      rw [hky] at hyf
      simp [bne] at hyf
    · exact List.Nodup.sublist ((List.filter_sublist _).map key) ih

/-! ### Claims C5 and C6: manifest ordering and de-duplication -/

/-- Claim C5, as amended: in the final manifest every pair of adjacent
entries `(a, b)` satisfies `b.ts ≤ a.ts` (newest first); there is no
identifier tie-break — the sort comparator only compares timestamps and
the sort is stable, so equal-timestamp entries keep their accumulation
order. -/
theorem kolibriC5_sortedDesc (items : List Item) :
    List.Chain' rTs (finalManifest items) := by
  have hs : List.Sorted rTs (finalManifest items) :=
    List.sorted_insertionSort rTs (dedupe items)
  exact List.Pairwise.chain' hs

/-- Claim C5 counterexample: two entries with equal timestamps and ids
`a`, `b` stay in accumulation order, so the adjacent pair is not in
descending identifier order and the claimed tie-break does not hold. -/
theorem kolibriC5_counterexample :
    itemA5.ts = itemB5.ts ∧ itemA5.id ≠ itemB5.id ∧
    finalManifest [itemA5, itemB5] = [itemA5, itemB5] ∧
    ¬ List.Chain' specTieOrder (finalManifest [itemA5, itemB5]) := by
  refine ⟨rfl, by decide, by decide, ?_⟩
  intro h
  rw [show finalManifest [itemA5, itemB5] = [itemA5, itemB5] by decide] at h
  rcases List.chain'_cons.mp h with ⟨hab, _⟩
  rcases hab with hlt | ⟨_, hid⟩
  · exact absurd hlt (by decide)
  · exact absurd hid (by decide)

/-- Claim C6: the manifest de-duplication keeps exactly the first
accumulated entry for each (kind, output path) key and drops later ones
without merging, and the (kind, output path) keys in the final manifest
are pairwise distinct. -/
theorem kolibriC6_dedupeUnique (items : List Item) :
    dedupe items = dedupeSpec items ∧ ((finalManifest items).map key).Nodup := by
  refine ⟨dedupe_eq_dedupeSpecAux items, ?_⟩
  have hperm : List.Perm (sortItems (dedupe items)) (dedupe items) :=
    List.perm_insertionSort rTs (dedupe items)
  have h1 : ((dedupe items).map key).Nodup := by
    rw [dedupe_eq_dedupeSpecAux]
    exact nodup_keys_dedupeSpec items
  unfold finalManifest
  exact ((hperm.map key).nodup_iff).mpr h1

/-! ### Helper lemmas on the processing chains and the pipeline -/

/-- A single task's entry reaches the final manifest exactly when its
processing succeeds. -/
theorem singleTask_manifest (p : Proc) (it : Item) :
    (runPipeline [⟨p, it⟩]).1 = if procOk p then [it] else [] := by
  unfold runPipeline
  cases hp : procOk p with
  | true =>
    simp [hp, finalManifest, dedupe, dedupeAux, seenHas, sortItems,
      List.insertionSort, List.orderedInsert]
  | false =>
    simp [hp, finalManifest, dedupe, dedupeAux, sortItems, List.insertionSort]

set_option maxHeartbeats 2000000 in
/-- Boolean facts about `processVideo` when the already-done skip path is
not taken: the attempted stage list, the success condition, the
no-audio synth failure, and the three-reason skip entry exactly on
total failure. -/
theorem processVideo_chain_facts :
    ∀ (fc ex1 ex2 tOk rOk au syOk q1 q2 q3 q4 : Bool),
    (fc = true ∨ ex1 = false ∨ ex2 = false) →
    (processVideo fc ex1 ex2 tOk rOk au syOk q1 q2 q3 q4).chainAttempts =
      (if tOk then [VStage.transcode]
       else if rOk then [VStage.transcode, VStage.remux]
       else [VStage.transcode, VStage.remux, VStage.synth]) ∧
    (processVideo fc ex1 ex2 tOk rOk au syOk q1 q2 q3 q4).ok =
      (tOk || rOk || (au && syOk)) ∧
    (au = false →
      (processVideo fc ex1 ex2 tOk rOk au syOk q1 q2 q3 q4).ok = (tOk || rOk)) ∧
    ((processVideo fc ex1 ex2 tOk rOk au syOk q1 q2 q3 q4).ok = false ↔
      (processVideo fc ex1 ex2 tOk rOk au syOk q1 q2 q3 q4).skipLog = [chainFailMsg au]) := by
  decide

theorem ready_run (p : Proc) (hp : outputsReady p) : procRun p = (true, 0) := by
  cases p with
  | img f o1 o2 s =>
    rcases hp with ⟨hf, h1, h2⟩
    subst hf; subst h1; subst h2
    rfl
  | vid f o1 o2 t r ha s p1 p2 p3 p4 =>
    rcases hp with ⟨hf, h1, h2⟩
    subst hf; subst h1; subst h2
    rfl

/-! ### Claims C7-C9: processing chains and idempotence -/

/-- Claim C7, as amended: unless the video is skipped as already-done
(force off and both outputs already on disk — in which case nothing is
attempted and the file reports success), the chain attempts transcode,
then on failure remux, then on failure synth; synth fails whenever the
source has no audio stream; exactly when all three stages fail, one
skip-log entry carrying all three failure reasons is written and the
file contributes no manifest entry, while success of any stage puts the
entry in the manifest. -/
theorem kolibriC7_videoFallback :
    ∀ (fc ex1 ex2 tOk rOk au syOk q1 q2 q3 q4 : Bool) (it : Item),
    (fc = true ∨ ex1 = false ∨ ex2 = false) →
    (processVideo fc ex1 ex2 tOk rOk au syOk q1 q2 q3 q4).chainAttempts =
      (if tOk then [VStage.transcode]
       else if rOk then [VStage.transcode, VStage.remux]
       else [VStage.transcode, VStage.remux, VStage.synth]) ∧
    (processVideo fc ex1 ex2 tOk rOk au syOk q1 q2 q3 q4).ok =
      (tOk || rOk || (au && syOk)) ∧
    (au = false →
      (processVideo fc ex1 ex2 tOk rOk au syOk q1 q2 q3 q4).ok = (tOk || rOk)) ∧
    ((processVideo fc ex1 ex2 tOk rOk au syOk q1 q2 q3 q4).ok = false ↔
      (processVideo fc ex1 ex2 tOk rOk au syOk q1 q2 q3 q4).skipLog = [chainFailMsg au]) ∧
    (runPipeline [⟨Proc.vid fc ex1 ex2 tOk rOk au syOk q1 q2 q3 q4, it⟩]).1 =
      (if (processVideo fc ex1 ex2 tOk rOk au syOk q1 q2 q3 q4).ok then [it] else []) := by
  intro fc ex1 ex2 tOk rOk au syOk q1 q2 q3 q4 it h
  have hb := processVideo_chain_facts fc ex1 ex2 tOk rOk au syOk q1 q2 q3 q4 h
  exact ⟨hb.1, hb.2.1, hb.2.2.1, hb.2.2.2,
    singleTask_manifest (Proc.vid fc ex1 ex2 tOk rOk au syOk q1 q2 q3 q4) it⟩

/-- Claim C7 counterexample: a video whose outputs pre-exist with force
off is reported successful without the transcode stage (or any stage)
being attempted, contradicting "for every video file, processing
attempts full transcode first". -/
theorem kolibriC7_counterexample :
    (processVideo false true true false false true true true true true true).ok = true ∧
    (processVideo false true true false false true true true true true true).chainAttempts = [] ∧
    VStage.transcode ∉
      (processVideo false true true false false true true true true true true).chainAttempts := by
  decide

/-- Claim C7 witness: with force on and every stage failing (no audio
stream), the file fails with the single three-reason skip entry. -/
theorem kolibriC7_witness :
    (processVideo true true true false false false false false false false false).ok = false ∧
    (processVideo true true true false false false false false false false false).skipLog =
      [chainFailMsg false] := by
  have h := kolibriC7_videoFallback true true true false false false false false false false false
    itemW9 (Or.inl rfl)
  have hok : (processVideo true true true false false false false false false false false).ok
      = false := h.2.1.trans (by decide)
  exact ⟨hok, h.2.2.2.1.mp hok⟩

set_option maxHeartbeats 2000000 in
/-- Claim C8, as amended: for every processed video whose chain succeeds,
the poster is attempted by frame extraction from the transcoded output
first, then — already inside the first fallback — a synthesized solid
placeholder, then frame extraction from the original source, then a
solid placeholder again, with one final solid-placeholder attempt (its
own failure ignored, only logged) when all fail; poster failure never
excludes the video from the manifest (`ok` stays true). -/
theorem kolibriC8_posterFallback :
    ∀ (fc ex1 ex2 tOk rOk au syOk q1 q2 q3 q4 : Bool),
    (fc = true ∨ ex1 = false ∨ ex2 = false) →
    (tOk || rOk || (au && syOk)) = true →
    (processVideo fc ex1 ex2 tOk rOk au syOk q1 q2 q3 q4).ok = true ∧
    (processVideo fc ex1 ex2 tOk rOk au syOk q1 q2 q3 q4).posterSteps =
      (if q1 then [PStep.frameOut]
       else if q2 then [PStep.frameOut, PStep.solid]
       else if q3 then [PStep.frameOut, PStep.solid, PStep.frameSrc]
       else if q4 then [PStep.frameOut, PStep.solid, PStep.frameSrc, PStep.solid]
       else [PStep.frameOut, PStep.solid, PStep.frameSrc, PStep.solid, PStep.solid]) ∧
    ((processVideo fc ex1 ex2 tOk rOk au syOk q1 q2 q3 q4).skipLog =
      if q1 || q2 || q3 || q4 then []
      else ["poster failed; using solid placeholder"]) := by
  decide

/-- Claim C8 counterexample: frame extraction from the transcoded output
fails, the solid placeholder succeeds, and frame extraction from the
original source — which would have succeeded — is never attempted: the
placeholder comes before the source-frame fallback, contradicting the
claimed attempt order. -/
theorem kolibriC8_counterexample :
    (processVideo true true true true false false false false true true false).posterSteps =
      [PStep.frameOut, PStep.solid] ∧
    PStep.frameSrc ∉
      (processVideo true true true true false false false false true true false).posterSteps ∧
    (processVideo true true true true false false false false true true false).ok = true := by
  decide

/-- Claim C8 witness: successful chain with successful first frame
extraction gives a single poster attempt and a manifest entry. -/
theorem kolibriC8_witness :
    (processVideo true true true true false false false true false false false).ok = true ∧
    (processVideo true true true true false false false true false false false).posterSteps =
      [PStep.frameOut] := by
  have h := kolibriC8_posterFallback true true true true false false false true false false false
    (Or.inl rfl) (by decide)
  exact ⟨h.1, h.2.1.trans (by decide)⟩

/-- Claim C9: a file whose two expected outputs already exist with
force-overwrite off is skipped entirely, reports success and performs no
transcode invocation; hence a second run over unchanged sources (same
accumulated entries, first run fully successful) performs zero transcode
invocations and produces an identical final manifest. -/
theorem kolibriC9_idempotent :
    ∀ (ts1 ts2 : List Task),
    ts1.map (fun t => t.item) = ts2.map (fun t => t.item) →
    (∀ t ∈ ts1, procOk t.proc = true) →
    (∀ t ∈ ts2, outputsReady t.proc) →
    (∀ t ∈ ts2, procOk t.proc = true ∧ procInv t.proc = 0) ∧
    (runPipeline ts2).2 = 0 ∧
    (runPipeline ts2).1 = (runPipeline ts1).1 := by
  intro ts1 ts2 hitems h1 h2
  have hok2 : ∀ t ∈ ts2, procOk t.proc = true ∧ procInv t.proc = 0 := by
    intro t ht
    have hr := ready_run t.proc (h2 t ht)
    exact ⟨by unfold procOk; rw [hr], by unfold procInv; rw [hr]⟩
  refine ⟨hok2, ?_, ?_⟩
  · apply List.sum_eq_zero
    intro x hx
    rcases List.mem_map.mp hx with ⟨t, ht, rfl⟩
    exact (hok2 t ht).2
  · unfold runPipeline
    have hf1 : ts1.filter (fun t => procOk t.proc) = ts1 :=
      List.filter_eq_self.mpr (fun t ht => h1 t ht)
    have hf2 : ts2.filter (fun t => procOk t.proc) = ts2 :=
      List.filter_eq_self.mpr (fun t ht => (hok2 t ht).1)
    rw [hf1, hf2, ← hitems]

/-- Claim C9 witness: the concrete second run (outputs pre-exist, force
off) performs zero transcode invocations and yields the same manifest as
the first run. -/
theorem kolibriC9_witness :
    (runPipeline tasksRun2).2 = 0 ∧ (runPipeline tasksRun2).1 = (runPipeline tasksRun1).1 := by
  have h1 : ∀ t ∈ tasksRun1, procOk t.proc = true := by
    intro t ht
    have := List.mem_singleton.mp ht
    subst this
    decide
  have h2 : ∀ t ∈ tasksRun2, outputsReady t.proc := by
    intro t ht
    have := List.mem_singleton.mp ht
    subst this
    exact ⟨rfl, rfl, rfl⟩
  have h := kolibriC9_idempotent tasksRun1 tasksRun2 rfl h1 h2
  exact ⟨h.2.1, h.2.2⟩

end Kolibri
